import Mathlib

/-!
Shallow embedding of `src/Logger.ts` (denomail-logger): a leveled logger that
timestamps a message, tags it with a severity level and a caller-supplied
label, colorizes the level tag, and writes the formatted line to a resolved
sink.

Modelling conventions:
* `LoggerLevel` is a TypeScript numeric enum (`Trace = 0, Info = 1, Warn = 2,
  Error = 3, Fatal = 4`); levels are modelled as `Nat`, so out-of-range level
  values (which TypeScript admits) are representable.
* The optional parameters of the TypeScript methods become `Option` arguments.
* The nondeterministic timestamp `new Date().toUTCString()` becomes an explicit
  `now : String` argument.
* The mutable static `Logger.minimum` is threaded as an explicit argument and
  returned unchanged in the result, so frame properties are provable.
* Color functions of the Deno std library wrap a string in fixed ANSI escape
  codes; they are modelled by their open/close code pairs.
* The byte write `writer.write(encoder.encode(line))` is modelled by recording
  the resolved writer and the line itself (UTF-8 encoding is injective, so the
  `String` stands for its encoded bytes).
-/

namespace Denomail

/-- `LoggerLevel.Trace` of the TypeScript enum, numeric value 0. -/
def LoggerLevel.Trace : Nat := 0

/-- `LoggerLevel.Info`, numeric value 1. -/
def LoggerLevel.Info : Nat := 1

/-- `LoggerLevel.Warn`, numeric value 2. -/
def LoggerLevel.Warn : Nat := 2

/-- `LoggerLevel.Error`, numeric value 3. -/
def LoggerLevel.Error : Nat := 3

/-- `LoggerLevel.Fatal`, numeric value 4. -/
def LoggerLevel.Fatal : Nat := 4

/-- The reverse enum mapping `LoggerLevel[l]` used in the format template.
For an out-of-range numeric value the TypeScript reverse mapping yields
`undefined`, which string interpolation renders as the text `"undefined"`. -/
def LoggerLevel.name (l : Nat) : String :=
  match l with
  | 0 => "Trace"
  | 1 => "Info"
  | 2 => "Warn"
  | 3 => "Error"
  | 4 => "Fatal"
  | _ => "undefined"

/-- A color function of `deno.land/std/fmt/colors.ts`: it wraps its argument
in a fixed opening ANSI code and the matching closing code. -/
structure ColorFn where
  openCode : String
  closeCode : String
deriving DecidableEq, Repr

/-- Applying a color function to a string. -/
def ColorFn.apply (c : ColorFn) (s : String) : String :=
  c.openCode ++ s ++ c.closeCode

namespace Colors

/-- `Colors.green`: `\x1b[32m ... \x1b[39m`. -/
def green : ColorFn := ⟨"\x1b[32m", "\x1b[39m"⟩

/-- `Colors.brightBlue`: `\x1b[94m ... \x1b[39m`. -/
def brightBlue : ColorFn := ⟨"\x1b[94m", "\x1b[39m"⟩

/-- `Colors.yellow`: `\x1b[33m ... \x1b[39m`. -/
def yellow : ColorFn := ⟨"\x1b[33m", "\x1b[39m"⟩

/-- `Colors.red`: `\x1b[31m ... \x1b[39m`. -/
def red : ColorFn := ⟨"\x1b[31m", "\x1b[39m"⟩

/-- `Colors.brightRed`: `\x1b[91m ... \x1b[39m`. -/
def brightRed : ColorFn := ⟨"\x1b[91m", "\x1b[39m"⟩

/-- `Colors.white`: `\x1b[37m ... \x1b[39m`. -/
def white : ColorFn := ⟨"\x1b[37m", "\x1b[39m"⟩

end Colors

/-- `logger_level_color` (src/Logger.ts:30-40): the switch mapping a level to
its color function, with a `default` fallback. -/
def logger_level_color (l : Nat) : ColorFn :=
  match l with
  | 0 => Colors.green
  | 1 => Colors.brightBlue
  | 2 => Colors.yellow
  | 3 => Colors.red
  | 4 => Colors.brightRed
  | _ => Colors.white

/-- A resolved output sink: the process standard streams, or a caller-supplied
writable handle (`Deno.Writer`), identified by a number. -/
inductive Writer where
  | stdout : Writer
  | stderr : Writer
  | custom : Nat → Writer
deriving DecidableEq, Repr

/-- The `Logger` instance fields (src/Logger.ts:45-47): `_level`, `_prefix`
(named `pfx` here because the TypeScript field name is reserved in Lean), and
the optional `_ostream` override. -/
structure Logger where
  level : Nat
  pfx : String
  ostream : Option Nat
deriving DecidableEq, Repr

/-- Initial value of the static field `Logger.minimum` (src/Logger.ts:43):
`LoggerLevel.Trace`. -/
def Logger.minimumInit : Nat := LoggerLevel.Trace

/-- `new Logger()` with every constructor argument defaulted
(src/Logger.ts:55-59): `level = LoggerLevel.Info`, `prefix = 'None'`,
`ostream = undefined`.  The constructor only assigns the three fields. -/
def Logger.defaultNew : Logger :=
  { level := LoggerLevel.Info, pfx := "None", ostream := none }

/-- One recorded write: the resolved writer and the encoded line. -/
structure LogOutput where
  writer : Writer
  bytes : String
deriving DecidableEq, Repr

/-- The result of a `log` call: the instance state after the call, the global
minimum after the call, and the write that happened (if any). -/
structure LogResult where
  self : Logger
  minimum : Nat
  output : Option LogOutput
deriving DecidableEq, Repr

/-- The level `log` actually uses after `if (!l) { l = this._level; }`
(src/Logger.ts:127-129).  JavaScript falsiness: the check replaces `l` by the
instance level both when the parameter is omitted (`undefined`) and when it is
`LoggerLevel.Trace`, whose numeric value `0` is falsy. -/
def codeEffLevel (instLevel : Nat) (l? : Option Nat) : Nat :=
  match l? with
  | none => instLevel
  | some l => if l == 0 then instLevel else l

/-- Modelled from the spec (not from the source): "Effective level =
levelOverride if provided, else instance `level`."  Used to compare the
source's behavior with the specified one. -/
def specEffLevel (instLevel : Nat) (l? : Option Nat) : Nat :=
  l?.getD instLevel

/-- The colorized tag placed between the parentheses of the line:
`logger_level_color(l)(`LoggerLevel[l]@prefix`)`. -/
def colorTag (l : Nat) (pfx : String) : String :=
  ColorFn.apply (logger_level_color l) (LoggerLevel.name l ++ "@" ++ pfx)

/-- The formatted line (src/Logger.ts:149).  The literal between the closing
parenthesis and the message in the source file is the two characters
`Â»` (the bytes `c3 82 c2 bb`, i.e. U+00C2 U+00BB), not a single `»`. -/
def formatLine (now : String) (l : Nat) (pfx m : String) : String :=
  now ++ " : (" ++ colorTag l pfx ++ ") Â» " ++ m ++ "\n"

/-- Sink selection of `log` (src/Logger.ts:139-147).  The source reads

```
let writer: Deno.Writer;
if (this._ostream) {
    writer = this._ostream;
} if (l === LoggerLevel.Fatal || l === LoggerLevel.Error) {
    writer = Deno.stderr;
} else {
    writer = Deno.stdout;
}
```

The second `if`/`else` is a separate statement, not an `else if` chained with
the first, so it reassigns `writer` unconditionally; the value assigned from
`this._ostream` (kept here as the dead binding `_writerFromOverride`) is
always overwritten. -/
def resolveWriter (ostream : Option Nat) (l : Nat) : Writer :=
  let _writerFromOverride : Option Writer := ostream.map Writer.custom
  if l == LoggerLevel.Fatal || l == LoggerLevel.Error then Writer.stderr
  else Writer.stdout

/-- `Logger.log` (src/Logger.ts:126-150).  `minimum` is the current value of
the static `Logger.minimum`; `now` is the string `new Date().toUTCString()`
produced at the call. -/
def Logger.log (self : Logger) (minimum : Nat) (now m : String) (l? : Option Nat) :
    LogResult :=
  let l : Nat := codeEffLevel self.level l?
  if minimum > l then
    { self := self, minimum := minimum, output := none }
  else
    { self := self, minimum := minimum,
      output := some { writer := resolveWriter self.ostream l,
                       bytes := formatLine now l self.pfx m } }

/-- `Logger.trace` (src/Logger.ts:85-87): `this.log(m, LoggerLevel.Trace)`. -/
def Logger.trace (self : Logger) (minimum : Nat) (now m : String) : LogResult :=
  Logger.log self minimum now m (some LoggerLevel.Trace)

/-- `Logger.info` (src/Logger.ts:93-95): `this.log(m, LoggerLevel.Info)`. -/
def Logger.info (self : Logger) (minimum : Nat) (now m : String) : LogResult :=
  Logger.log self minimum now m (some LoggerLevel.Info)

/-- `Logger.warn` (src/Logger.ts:101-103): `this.log(m, LoggerLevel.Warn)`. -/
def Logger.warn (self : Logger) (minimum : Nat) (now m : String) : LogResult :=
  Logger.log self minimum now m (some LoggerLevel.Warn)

/-- `Logger.error` (src/Logger.ts:109-111): `this.log(m, LoggerLevel.Error)`. -/
def Logger.error (self : Logger) (minimum : Nat) (now m : String) : LogResult :=
  Logger.log self minimum now m (some LoggerLevel.Error)

/-- `Logger.fatal` (src/Logger.ts:117-119): `this.log(m, LoggerLevel.Fatal)`. -/
def Logger.fatal (self : Logger) (minimum : Nat) (now m : String) : LogResult :=
  Logger.log self minimum now m (some LoggerLevel.Fatal)

/-- The `level` setter (src/Logger.ts:73-75): assigns `_level` only. -/
def Logger.setLevel (self : Logger) (l : Nat) : Logger :=
  { self with level := l }

/-- A sample timestamp of the shape produced by `Date.prototype.toUTCString`. -/
def sampleTs : String := "Wed, 01 Jan 2020 00:00:00 GMT"

/-- The characters of the first fixed separator of the line format. -/
def sepTs : List Char := " : (".data

/-- The characters of the second fixed separator of the line format, exactly
as they stand in the source bytes. -/
def sepMsg : List Char := ") Â» ".data

/-- Splits a character list at the first occurrence of `sep`, returning the
parts before and after that occurrence. -/
def splitFirst (sep : List Char) : List Char → Option (List Char × List Char)
  | [] => if List.isPrefixOf sep [] then some ([], []) else none
  | c :: rest =>
    if List.isPrefixOf sep (c :: rest) then
      some ([], List.drop sep.length (c :: rest))
    else
      match splitFirst sep rest with
      | some (a, b) => some (c :: a, b)
      | none => none

/-- Scanner removing ANSI escape sequences (`ESC ... m`); the Boolean state
says whether the scanner is inside an escape sequence. -/
def stripAnsiAux : Bool → List Char → List Char
  | _, [] => []
  | false, c :: rest =>
    if c = '\x1b' then stripAnsiAux true rest else c :: stripAnsiAux false rest
  | true, c :: rest =>
    if c = 'm' then stripAnsiAux false rest else stripAnsiAux true rest

/-- Removes ANSI escape sequences from a character list. -/
def stripAnsi (s : List Char) : List Char := stripAnsiAux false s

/-- Parses an emitted line back into its three regions by stripping the fixed
separators: the part before the first occurrence of `sepTs`, then the part
before the next occurrence of `sepMsg` with its color codes stripped, then
the rest without its trailing newline. -/
def parseLine (line : String) : Option (String × String × String) :=
  match splitFirst sepTs line.data with
  | none => none
  | some (ts, rest) =>
    match splitFirst sepMsg rest with
    | none => none
    | some (tag, rest2) =>
      if rest2.getLast? = some '\n' then
        some (⟨ts⟩, ⟨stripAnsi tag⟩, ⟨rest2.dropLast⟩)
      else none

/-- `cleanFor sep a = true` says that when `a` is followed by `sep`, no
occurrence of `sep` starts inside `a`; it is the premise under which the
first occurrence of `sep` marks the end of the region `a`. -/
def cleanFor (sep a : List Char) : Bool :=
  (List.range a.length).all fun i => !(List.isPrefixOf sep (List.drop i a ++ sep))

/- ===================== helper lemmas ===================== -/

/-- Helper: the instance state returned by `log` is the one passed in. -/
theorem log_self (self : Logger) (minimum : Nat) (now m : String) (l? : Option Nat) :
    (Logger.log self minimum now m l?).self = self := by
  unfold Logger.log
  dsimp only
  split <;> rfl

/-- Helper: the global minimum returned by `log` is the one passed in. -/
theorem log_minimum (self : Logger) (minimum : Nat) (now m : String) (l? : Option Nat) :
    (Logger.log self minimum now m l?).minimum = minimum := by
  unfold Logger.log
  dsimp only
  split <;> rfl

/-- Helper: `log` writes something exactly when the level it uses after the
falsy-override check is at least the global minimum. -/
theorem log_emits_iff (self : Logger) (minimum : Nat) (now m : String) (l? : Option Nat) :
    ((Logger.log self minimum now m l?).output).isSome = true ↔
      minimum ≤ codeEffLevel self.level l? := by
  unfold Logger.log
  rcases Nat.lt_or_ge (codeEffLevel self.level l?) minimum with h | h
  · rw [if_pos h]
    simp
    omega
  · rw [if_neg (by omega)]
    simp
    omega

/-- Helper: `log` writes exactly when the level it uses after the
falsy-override check is at least the global minimum (Bool form). -/
theorem log_isSome_eq (self : Logger) (minimum : Nat) (now m : String) (l? : Option Nat) :
    ((Logger.log self minimum now m l?).output).isSome =
      decide (minimum ≤ codeEffLevel self.level l?) := by
  unfold Logger.log
  dsimp only
  by_cases h : minimum > codeEffLevel self.level l?
  · rw [if_pos h]
    simp
    omega
  · rw [if_neg h]
    simp
    omega

/-- Claim C1, behavior of the code at the failing input: a logger constructed
with a sink override (handle 7) still has its non-suppressed write routed to
stdout.  The second `if` of the sink selection (src/Logger.ts:143) is not
chained to the first with `else`, so it reassigns `writer` unconditionally and
the override is never used. -/
theorem c1_override_sink_ignored :
    ((Logger.log ⟨LoggerLevel.Info, "net", some 7⟩ Logger.minimumInit sampleTs "hi"
        none).output.map LogOutput.writer) = some Writer.stdout := rfl

/-- Claim C2, behavior of the code at the failing input: with instance level
Warn and global minimum Info, `log("x", LoggerLevel.Trace)` emits a line
tagged Warn to stdout instead of being suppressed: `if (!l)` treats the falsy
value `Trace = 0` as an absent argument and replaces it by the instance
level. -/
theorem c2_trace_override_ignored :
    (Logger.log ⟨LoggerLevel.Warn, "net", none⟩ LoggerLevel.Info sampleTs "x"
        (some LoggerLevel.Trace)).output
      = some ⟨Writer.stdout, formatLine sampleTs LoggerLevel.Warn "net" "x"⟩ := rfl

/-- Claim C3 counterexample: with instance level Fatal, global minimum Info
and explicit override Trace, the spec-defined effective level (Trace) is
strictly below the minimum, yet the call emits a line. -/
theorem c3_counterexample :
    specEffLevel LoggerLevel.Fatal (some LoggerLevel.Trace) < LoggerLevel.Info ∧
    ((Logger.log ⟨LoggerLevel.Fatal, "p", none⟩ LoggerLevel.Info sampleTs "x"
        (some LoggerLevel.Trace)).output).isSome = true := by
  exact ⟨by decide, rfl⟩

/-- Claim C3 (amended): a message is emitted if and only if the level the code
actually uses — the explicit override if provided and nonzero (an explicit
Trace override, being the falsy value 0, is replaced by the instance level),
else the instance level — is at least the global minimum at the call. -/
theorem c3_emit_iff (self : Logger) (minimum : Nat) (now m : String) (l? : Option Nat) :
    ((Logger.log self minimum now m l?).output).isSome = true ↔
      minimum ≤ codeEffLevel self.level l? :=
  log_emits_iff self minimum now m l?

/-- Claim C4 counterexample: instance level Error, no sink override, global
minimum Trace, call `log("boom", Trace)`.  The spec-defined effective level is
Trace, so the claim requires stdout, but the line is written to stderr. -/
theorem c4_counterexample :
    specEffLevel LoggerLevel.Error (some LoggerLevel.Trace) = LoggerLevel.Trace ∧
    ((Logger.log ⟨LoggerLevel.Error, "disk", none⟩ Logger.minimumInit sampleTs "boom"
        (some LoggerLevel.Trace)).output.map LogOutput.writer) = some Writer.stderr := by
  exact ⟨rfl, rfl⟩

/-- Claim C4 (amended): for every non-suppressed call on an instance with no
sink override, the line goes to stderr when the level the code actually uses
(override if provided and nonzero, else instance level) is Fatal or Error, and
to stdout otherwise. -/
theorem c4_default_sink_selection (self : Logger) (minimum : Nat) (now m : String)
    (l? : Option Nat) (out : LogOutput)
    (hsink : self.ostream = none)
    (hout : (Logger.log self minimum now m l?).output = some out) :
    out.writer =
      if codeEffLevel self.level l? == LoggerLevel.Fatal
          || codeEffLevel self.level l? == LoggerLevel.Error then Writer.stderr
      else Writer.stdout := by
  unfold Logger.log at hout
  dsimp only at hout
  by_cases h : minimum > codeEffLevel self.level l?
  · rw [if_pos h] at hout
    exact absurd hout (by simp)
  · rw [if_neg h] at hout
    rw [hsink] at hout
    simp only [Option.some.injEq] at hout
    rw [← hout]
    rfl

/-- Witness for the amended C4 at a concrete input. -/
theorem c4_default_sink_selection_witness :
    (LogOutput.mk Writer.stderr (formatLine sampleTs LoggerLevel.Error "disk" "boom")).writer =
      if codeEffLevel LoggerLevel.Error none == LoggerLevel.Fatal
          || codeEffLevel LoggerLevel.Error none == LoggerLevel.Error then Writer.stderr
      else Writer.stdout :=
  c4_default_sink_selection ⟨LoggerLevel.Error, "disk", none⟩ Logger.minimumInit sampleTs "boom"
    none (LogOutput.mk Writer.stderr (formatLine sampleTs LoggerLevel.Error "disk" "boom"))
    rfl rfl

/-- Claim C6 counterexample: instance level Fatal, global minimum Warn,
explicit override Trace.  The spec-defined effective level (Trace) is strictly
below the minimum, so the claim requires a silent no-op, yet bytes are
written. -/
theorem c6_counterexample :
    specEffLevel LoggerLevel.Fatal (some LoggerLevel.Trace) < LoggerLevel.Warn ∧
    (Logger.log ⟨LoggerLevel.Fatal, "db", none⟩ LoggerLevel.Warn sampleTs "y"
        (some LoggerLevel.Trace)).output ≠ none := by
  refine ⟨by decide, ?_⟩
  intro h
  exact Option.noConfusion h

/-- Claim C6 (amended): every call whose code-effective level (override if
provided and nonzero, else instance level) is strictly below the global
minimum returns with no output and leaves the instance and the global minimum
unchanged; `log` is total, so no error is raised. -/
theorem c6_suppressed_is_noop (self : Logger) (minimum : Nat) (now m : String)
    (l? : Option Nat) (h : codeEffLevel self.level l? < minimum) :
    Logger.log self minimum now m l? =
      { self := self, minimum := minimum, output := none } := by
  unfold Logger.log
  dsimp only
  rw [if_pos h]

/-- Witness for the amended C6 at a concrete input. -/
theorem c6_suppressed_is_noop_witness :
    Logger.log ⟨LoggerLevel.Info, "None", none⟩ LoggerLevel.Warn sampleTs "zzz" none =
      { self := ⟨LoggerLevel.Info, "None", none⟩, minimum := LoggerLevel.Warn,
        output := none } :=
  c6_suppressed_is_noop ⟨LoggerLevel.Info, "None", none⟩ LoggerLevel.Warn sampleTs "zzz" none
    (by decide)

/-- Claim C7: the level-to-color map is a total function sending Trace to
green, Info to bright blue, Warn to yellow, Error to red, Fatal to bright red
and every other numeric value to white, and a call with an unrecognized level
still formats and writes (it produces output whenever not suppressed). -/
theorem c7_level_color_total :
    logger_level_color LoggerLevel.Trace = Colors.green ∧
    logger_level_color LoggerLevel.Info = Colors.brightBlue ∧
    logger_level_color LoggerLevel.Warn = Colors.yellow ∧
    logger_level_color LoggerLevel.Error = Colors.red ∧
    logger_level_color LoggerLevel.Fatal = Colors.brightRed ∧
    (∀ l : Nat, LoggerLevel.Fatal < l → logger_level_color l = Colors.white) ∧
    (∀ (self : Logger) (minimum : Nat) (now m : String) (l : Nat),
      LoggerLevel.Fatal < l → minimum ≤ l →
      ((Logger.log self minimum now m (some l)).output).isSome = true) := by
  refine ⟨rfl, rfl, rfl, rfl, rfl, ?_, ?_⟩
  · intro l h
    match l, h with
    | n + 5, _ => rfl
  · intro self minimum now m l h1 h2
    rw [log_isSome_eq]
    have hl : ¬ ((l == 0) = true) := by
      simp only [beq_iff_eq]
      omega
    simp only [codeEffLevel, if_neg hl]
    simp only [decide_eq_true_eq]
    exact h2

/-- Witness for C7 at the unrecognized level 9. -/
theorem c7_level_color_total_witness :
    logger_level_color 9 = Colors.white ∧
    ((Logger.log Logger.defaultNew Logger.minimumInit sampleTs "odd"
        (some 9)).output).isSome = true :=
  ⟨c7_level_color_total.2.2.2.2.2.1 9 (by decide),
   c7_level_color_total.2.2.2.2.2.2 Logger.defaultNew Logger.minimumInit sampleTs "odd" 9
     (by decide) (by decide)⟩

/-- Claim C8: a default-constructed logger has level Info, label "None" and no
sink override (the constructor only assigns the three fields), and the static
global minimum starts at Trace. -/
theorem c8_defaults :
    Logger.defaultNew.level = LoggerLevel.Info ∧
    Logger.defaultNew.pfx = "None" ∧
    Logger.defaultNew.ostream = none ∧
    Logger.minimumInit = LoggerLevel.Trace :=
  ⟨rfl, rfl, rfl, rfl⟩

/-- Claim C9: no logging operation mutates state.  `log` and the five
convenience wrappers return the instance and the global minimum unchanged, and
the level setter changes only the `level` field. -/
theorem c9_frame (self : Logger) (minimum : Nat) (now m : String) (l? : Option Nat)
    (lnew : Nat) :
    (Logger.log self minimum now m l?).self = self ∧
    (Logger.log self minimum now m l?).minimum = minimum ∧
    (Logger.trace self minimum now m).self = self ∧
    (Logger.trace self minimum now m).minimum = minimum ∧
    (Logger.info self minimum now m).self = self ∧
    (Logger.info self minimum now m).minimum = minimum ∧
    (Logger.warn self minimum now m).self = self ∧
    (Logger.warn self minimum now m).minimum = minimum ∧
    (Logger.error self minimum now m).self = self ∧
    (Logger.error self minimum now m).minimum = minimum ∧
    (Logger.fatal self minimum now m).self = self ∧
    (Logger.fatal self minimum now m).minimum = minimum ∧
    (Logger.setLevel self lnew).level = lnew ∧
    (Logger.setLevel self lnew).pfx = self.pfx ∧
    (Logger.setLevel self lnew).ostream = self.ostream :=
  ⟨log_self self minimum now m l?, log_minimum self minimum now m l?,
   log_self self minimum now m (some LoggerLevel.Trace),
   log_minimum self minimum now m (some LoggerLevel.Trace),
   log_self self minimum now m (some LoggerLevel.Info),
   log_minimum self minimum now m (some LoggerLevel.Info),
   log_self self minimum now m (some LoggerLevel.Warn),
   log_minimum self minimum now m (some LoggerLevel.Warn),
   log_self self minimum now m (some LoggerLevel.Error),
   log_minimum self minimum now m (some LoggerLevel.Error),
   log_self self minimum now m (some LoggerLevel.Fatal),
   log_minimum self minimum now m (some LoggerLevel.Fatal),
   rfl, rfl, rfl⟩

/-- Claim C10: the emit-or-suppress decision reads only the level argument,
the instance level and the global minimum.  Two calls under the same minimum
with the same instance level and the same level argument — hence the same
effective level — but different messages, labels, sink overrides or
timestamps either both write or both stay silent. -/
theorem c10_decision_noninterference (minimum lvl : Nat) (l? : Option Nat)
    (p1 p2 : String) (s1 s2 : Option Nat) (now1 now2 m1 m2 : String) :
    ((Logger.log ⟨lvl, p1, s1⟩ minimum now1 m1 l?).output).isSome =
      ((Logger.log ⟨lvl, p2, s2⟩ minimum now2 m2 l?).output).isSome := by
  rw [log_isSome_eq, log_isSome_eq]

/-- Helper: whether a list is a `isPrefixOf` of an appended list only depends
on the first part when that part is long enough. -/
theorem isPrefixOf_append_of_le (l : List Char) :
    ∀ (x y : List Char), l.length ≤ x.length →
      List.isPrefixOf l (x ++ y) = List.isPrefixOf l x := by
  induction l with
  | nil => intro x y _; simp [List.isPrefixOf]
  | cons a l ih =>
    intro x y h
    cases x with
    | nil => simp at h
    | cons b x =>
      rw [List.cons_append]
      simp only [List.isPrefixOf]
      rw [ih x y (by simpa using h)]

/-- Helper: every list is a Boolean prefix of itself. -/
theorem isPrefixOf_self (l : List Char) : List.isPrefixOf l l = true := by
  induction l with
  | nil => rfl
  | cons a l ih => simp [List.isPrefixOf, ih]

/-- Helper: the head instance of `cleanFor` on a nonempty region. -/
theorem cleanFor_head (sep : List Char) (c : Char) (a : List Char)
    (h : cleanFor sep (c :: a) = true) :
    List.isPrefixOf sep ((c :: a) ++ sep) = false := by
  have h0 := List.all_eq_true.mp h 0 (by simp)
  simpa using h0

/-- Helper: `cleanFor` restricts to the tail of the region. -/
theorem cleanFor_tail (sep : List Char) (c : Char) (a : List Char)
    (h : cleanFor sep (c :: a) = true) : cleanFor sep a = true := by
  apply List.all_eq_true.mpr
  intro i hi
  rw [List.mem_range] at hi
  have := List.all_eq_true.mp h (i + 1) (by rw [List.mem_range, List.length_cons]; omega)
  simpa using this

/-- Helper: `splitFirst` recovers the decomposition around the first
occurrence of a nonempty separator, provided no occurrence starts earlier. -/
theorem splitFirst_append (sep : List Char) (hne : sep ≠ []) :
    ∀ (a b : List Char), cleanFor sep a = true →
      splitFirst sep (a ++ (sep ++ b)) = some (a, b) := by
  intro a
  induction a with
  | nil =>
    intro b _
    rw [List.nil_append]
    cases sep with
    | nil => exact absurd rfl hne
    | cons c srest =>
      rw [List.cons_append]
      simp only [splitFirst]
      rw [← List.cons_append]
      rw [isPrefixOf_append_of_le (c :: srest) (c :: srest) b (Nat.le_refl _)]
      rw [if_pos (isPrefixOf_self (c :: srest))]
      rw [List.drop_left]
  | cons c a ih =>
    intro b hclean
    rw [List.cons_append]
    simp only [splitFirst]
    have hfalse : List.isPrefixOf sep (c :: (a ++ (sep ++ b))) = false := by
      have e : c :: (a ++ (sep ++ b)) = ((c :: a) ++ sep) ++ b := by
        simp [List.append_assoc]
      rw [e]
      rw [isPrefixOf_append_of_le sep ((c :: a) ++ sep) b
        (by rw [List.length_append]; omega)]
      exact cleanFor_head sep c a hclean
    rw [if_neg (by simp [hfalse])]
    rw [ih b (cleanFor_tail sep c a hclean)]

/-- Helper: the escape scanner passes over escape-free text. -/
theorem stripAnsiAux_noesc (s : List Char) (hs : '\x1b' ∉ s) (t : List Char) :
    stripAnsiAux false (s ++ t) = s ++ stripAnsiAux false t := by
  induction s with
  | nil => rfl
  | cons c s ih =>
    simp only [List.mem_cons, not_or] at hs
    rw [List.cons_append]
    simp only [stripAnsiAux]
    rw [if_neg (fun h => hs.1 h.symm), ih hs.2]
    rfl

/-- Helper: inside an escape sequence the scanner drops text up to the
terminating `m`. -/
theorem stripAnsiAux_esc (u : List Char) (hu : 'm' ∉ u) (t : List Char) :
    stripAnsiAux true (u ++ 'm' :: t) = stripAnsiAux false t := by
  induction u with
  | nil =>
    rw [List.nil_append]
    simp [stripAnsiAux]
  | cons c u ih =>
    simp only [List.mem_cons, not_or] at hu
    rw [List.cons_append]
    simp only [stripAnsiAux]
    rw [if_neg (fun h => hu.1 h.symm)]
    exact ih hu.2

/-- Helper: the scanner enters escape mode at an escape character. -/
theorem stripAnsiAux_esc_start (t : List Char) :
    stripAnsiAux false ('\x1b' :: t) = stripAnsiAux true t := by
  simp [stripAnsiAux]

/-- Helper: stripping a text wrapped in one opening and one closing escape
sequence returns the text. -/
theorem stripAnsi_wrap (u v s : List Char) (hu : 'm' ∉ u) (hv : 'm' ∉ v)
    (hs : '\x1b' ∉ s) :
    stripAnsi (('\x1b' :: (u ++ ['m'])) ++ s ++ ('\x1b' :: (v ++ ['m']))) = s := by
  unfold stripAnsi
  have e1 : ('\x1b' :: (u ++ ['m'])) ++ s ++ ('\x1b' :: (v ++ ['m']))
      = '\x1b' :: (u ++ 'm' :: (s ++ ('\x1b' :: (v ++ ['m'])))) := by
    simp [List.append_assoc]
  rw [e1, stripAnsiAux_esc_start]
  rw [stripAnsiAux_esc u hu]
  rw [stripAnsiAux_noesc s hs]
  rw [stripAnsiAux_esc_start]
  have e2 : v ++ ['m'] = v ++ 'm' :: ([] : List Char) := rfl
  rw [e2, stripAnsiAux_esc v hv]
  simp [stripAnsiAux]

/-- Helper: each color of the switch wraps its argument in one opening escape
sequence and one closing escape sequence. -/
theorem color_decomp (l : Nat) : ∃ u v : List Char, 'm' ∉ u ∧ 'm' ∉ v ∧
    (logger_level_color l).openCode.data = '\x1b' :: (u ++ ['m']) ∧
    (logger_level_color l).closeCode.data = '\x1b' :: (v ++ ['m']) := by
  rcases l with _ | _ | _ | _ | _ | n
  · exact ⟨"[32".data, "[39".data, by decide, by decide, by decide, by decide⟩
  · exact ⟨"[94".data, "[39".data, by decide, by decide, by decide, by decide⟩
  · exact ⟨"[33".data, "[39".data, by decide, by decide, by decide, by decide⟩
  · exact ⟨"[31".data, "[39".data, by decide, by decide, by decide, by decide⟩
  · exact ⟨"[91".data, "[39".data, by decide, by decide, by decide, by decide⟩
  · show ∃ u v : List Char, 'm' ∉ u ∧ 'm' ∉ v ∧
        Colors.white.openCode.data = '\x1b' :: (u ++ ['m']) ∧
        Colors.white.closeCode.data = '\x1b' :: (v ++ ['m'])
    exact ⟨"[37".data, "[39".data, by decide, by decide, by decide, by decide⟩

/-- Helper: the textual level names contain no escape character. -/
theorem esc_not_mem_name (l : Nat) : '\x1b' ∉ (LoggerLevel.name l).data := by
  rcases l with _ | _ | _ | _ | _ | n
  · decide
  · decide
  · decide
  · decide
  · decide
  · show '\x1b' ∉ ("undefined" : String).data
    decide

/-- Helper: stripping the color codes of the colorized tag recovers the plain
`LEVELNAME@prefix` text, provided the instance label has no escape char. -/
theorem stripAnsi_colorTag (l : Nat) (pfx : String) (hp : '\x1b' ∉ pfx.data) :
    stripAnsi (colorTag l pfx).data = (LoggerLevel.name l ++ "@" ++ pfx).data := by
  obtain ⟨u, v, hu, hv, hopen, hclose⟩ := color_decomp l
  have hin : '\x1b' ∉ (LoggerLevel.name l ++ "@" ++ pfx).data := by
    simp only [String.data_append, List.mem_append, not_or]
    exact ⟨⟨esc_not_mem_name l, by decide⟩, hp⟩
  have e : (colorTag l pfx).data
      = ('\x1b' :: (u ++ ['m'])) ++ (LoggerLevel.name l ++ "@" ++ pfx).data
          ++ ('\x1b' :: (v ++ ['m'])) := by
    simp only [colorTag, ColorFn.apply, String.data_append, hopen, hclose]
  rw [e]
  exact stripAnsi_wrap u v ((LoggerLevel.name l ++ "@" ++ pfx).data) hu hv hin

/-- Claim C5 counterexample: the claimed separator ") » " does not occur in an
emitted line at all; the source template (src/Logger.ts:149) carries the
mojibake text ") Â» " (bytes `c3 82 c2 bb` between the spaces), so the line
cannot be parsed back by stripping ") » ". -/
theorem c5_counterexample :
    ((Logger.log Logger.defaultNew Logger.minimumInit sampleTs "ready" none).output.map
      (fun o => (splitFirst ") » ".data o.bytes.data).isSome)) = some false ∧
    ((Logger.log Logger.defaultNew Logger.minimumInit sampleTs "ready" none).output.map
      (fun o => (splitFirst sepMsg o.bytes.data).isSome)) = some true := by
  exact ⟨by decide, by decide⟩

/-- Claim C5 (amended): every emitted line has the exact shape
`<timestamp> : (<colorized LEVELNAME@prefix>) Â» <message>\n` — with the
separator ") Â» " that actually stands in the source — and parsing it back by
taking the region before the first " : (", then the region before the next
") Â» " with color codes stripped, then the rest without its trailing
newline, yields the timestamp, the plain `LEVELNAME@prefix` tag and the
original message, provided no occurrence of a separator starts inside the
timestamp region or inside the colorized tag and the instance label contains
no escape character. -/
theorem c5_roundtrip (self : Logger) (minimum : Nat) (now m : String) (l? : Option Nat)
    (out : LogOutput)
    (hout : (Logger.log self minimum now m l?).output = some out)
    (hnow : cleanFor sepTs now.data = true)
    (htag : cleanFor sepMsg (colorTag (codeEffLevel self.level l?) self.pfx).data = true)
    (hpfx : '\x1b' ∉ self.pfx.data) :
    out.bytes = formatLine now (codeEffLevel self.level l?) self.pfx m ∧
    parseLine out.bytes =
      some (now, LoggerLevel.name (codeEffLevel self.level l?) ++ "@" ++ self.pfx, m) := by
  have hb : out.bytes = formatLine now (codeEffLevel self.level l?) self.pfx m := by
    unfold Logger.log at hout
    dsimp only at hout
    by_cases h : minimum > codeEffLevel self.level l?
    · rw [if_pos h] at hout
      exact absurd hout (by simp)
    · rw [if_neg h] at hout
      simp only [Option.some.injEq] at hout
      rw [← hout]
  refine ⟨hb, ?_⟩
  rw [hb]
  have hdata : (formatLine now (codeEffLevel self.level l?) self.pfx m).data
      = now.data ++ (sepTs ++ ((colorTag (codeEffLevel self.level l?) self.pfx).data
          ++ (sepMsg ++ (m.data ++ ['\n'])))) := by
    simp [formatLine, sepTs, sepMsg, List.append_assoc]
  unfold parseLine
  rw [hdata]
  rw [splitFirst_append sepTs (by decide) now.data _ hnow]
  dsimp only
  rw [splitFirst_append sepMsg (by decide)
    ((colorTag (codeEffLevel self.level l?) self.pfx).data) _ htag]
  dsimp only
  rw [List.getLast?_concat]
  rw [if_pos rfl]
  rw [List.dropLast_concat]
  rw [stripAnsi_colorTag (codeEffLevel self.level l?) self.pfx hpfx]

/-- Witness for the amended C5 at a concrete call. -/
theorem c5_roundtrip_witness :
    (LogOutput.mk Writer.stdout (formatLine sampleTs LoggerLevel.Info "app" "ready")).bytes
        = formatLine sampleTs LoggerLevel.Info "app" "ready" ∧
    parseLine (LogOutput.mk Writer.stdout
        (formatLine sampleTs LoggerLevel.Info "app" "ready")).bytes
        = some (sampleTs, "Info@app", "ready") :=
  c5_roundtrip ⟨LoggerLevel.Info, "app", none⟩ Logger.minimumInit sampleTs "ready" none
    (LogOutput.mk Writer.stdout (formatLine sampleTs LoggerLevel.Info "app" "ready"))
    rfl (by decide) (by decide) (by decide)

end Denomail
